import Mathlib

/-
Verification of the evaluator of the funsearch repository
(`implementation/evaluator.py`).

The development shallowly embeds the Python source:

* `pySplit` / `joinCharsNl` model Python's `str.splitlines()` and
  `"\n".join(...)` at the character-list level (only `'\n'` separators
  occur in this code base).
* `trimLoop` / `_trim_function_body` embed the truncation loop of
  `_trim_function_body` (evaluator.py lines 48-67).  Python's `ast.parse`
  is not part of the repository; it is abstracted as a `PyParse` oracle
  that either fails with the 1-based line number carried by the
  `SyntaxError` or succeeds returning the end line of the synthetic
  function `fake_function_header` (the value produced by
  `_FunctionLineVisitor`).
* `Function` / `Program` model the `code_manipulation` collaborator,
  which is not under the sources provided; they are modelled from the
  spec (sections 3 and 6).
* `Sandbox.run` / `sandbox_target` embed the process sandbox
  (evaluator.py lines 89-120); the behaviour of the untrusted worker is
  abstracted as an `ExecOutcome`.
* `Evaluator.analyse` embeds the analysis loop (evaluator.py lines
  155-180); the programs database collaborator is modelled as the list
  of `register_program` calls made so far.
-/

namespace Funsearch

/-! ### Python line handling: `str.splitlines()` and `"\n".join` -/

/-- Python `str.splitlines()` on a character list, for `'\n'` separators:
splits at every `'\n'`; a trailing newline produces no trailing empty
line (`"a\n".splitlines() == ["a"]`, `"".splitlines() == []`). -/
def pySplit : List Char → List (List Char)
  | [] => []
  | c :: cs =>
    if c = '\n' then [] :: pySplit cs
    else
      match pySplit cs with
      | [] => [[c]]
      | l :: ls => (c :: l) :: ls

/-- Python `"\n".join(...)` on character lists. -/
def joinCharsNl : List (List Char) → List Char
  | [] => []
  | [l] => l
  | l :: ls => l ++ '\n' :: joinCharsNl ls

/-- Python `code.splitlines()`. -/
def splitlines (s : String) : List String :=
  (pySplit s.data).map String.mk

/-- Python `"\n".join(lines)`. -/
def joinLines (ls : List String) : String :=
  String.mk (joinCharsNl (ls.map String.data))

theorem joinCharsNl_cons_cons (l m : List Char) (ls : List (List Char)) :
    joinCharsNl (l :: m :: ls) = l ++ '\n' :: joinCharsNl (m :: ls) := rfl

theorem pySplit_cons (c : Char) (cs : List Char) :
    pySplit (c :: cs) =
      if c = '\n' then [] :: pySplit cs
      else
        match pySplit cs with
        | [] => [[c]]
        | l :: ls => (c :: l) :: ls := by
  rw [pySplit]

/-- No produced line contains a newline. -/
theorem pySplit_no_newline : ∀ cs, ∀ l ∈ pySplit cs, '\n' ∉ l := by
  intro cs
  induction cs with
  | nil => intro l hl; simp [pySplit] at hl
  | cons c cs ih =>
    intro l hl
    rw [pySplit_cons] at hl
    by_cases hc : c = '\n'
    · rw [if_pos hc] at hl
      rcases List.mem_cons.mp hl with h | h
      · subst h; simp
      · exact ih l h
    · rw [if_neg hc] at hl
      rcases hp : pySplit cs with - | ⟨l0, ls0⟩ <;> rw [hp] at hl
      · simp only [List.mem_singleton] at hl
        subst hl
        intro hm
        rcases List.mem_singleton.mp hm with h
        exact hc h.symm
      · rcases List.mem_cons.mp hl with h | h
        · subst h
          intro hm
          rcases List.mem_cons.mp hm with h | h
          · exact hc h.symm
          · exact ih l0 (hp ▸ List.mem_cons_self _ _) h
        · exact ih l (hp ▸ List.mem_cons_of_mem _ h)

/-- Splitting then joining gives back at most the original length
(a trailing newline is lost, nothing else changes). -/
theorem joinCharsNl_pySplit_length : ∀ cs, (joinCharsNl (pySplit cs)).length ≤ cs.length := by
  intro cs
  induction cs with
  | nil => simp [pySplit, joinCharsNl]
  | cons c cs ih =>
    rw [pySplit_cons]
    by_cases hc : c = '\n'
    · rw [if_pos hc]
      rcases hp : pySplit cs with - | ⟨l0, ls0⟩ <;> rw [hp] at ih
      · show ([] : List Char).length ≤ (c :: cs).length
        exact Nat.zero_le _
      · rw [joinCharsNl_cons_cons]
        simp only [List.length_append, List.length_cons, List.nil_append]
        omega
    · rw [if_neg hc]
      rcases hp : pySplit cs with - | ⟨l0, ls0⟩ <;> rw [hp] at ih
      · simp [joinCharsNl]
      · rcases ls0 with - | ⟨l1, ls1⟩
        · simp only [joinCharsNl] at ih ⊢
          simp only [List.length_cons]
          omega
        · rw [joinCharsNl_cons_cons] at ih ⊢
          simp only [List.length_append, List.length_cons, List.cons_append] at ih ⊢
          omega

/-- Joining a prefix of the lines is no longer than joining all of them. -/
theorem joinCharsNl_take_length : ∀ (ps : List (List Char)) (k : Nat),
    (joinCharsNl (ps.take k)).length ≤ (joinCharsNl ps).length := by
  intro ps
  induction ps with
  | nil => intro k; simp
  | cons p ps ih =>
    intro k
    cases k with
    | zero => simp [joinCharsNl]
    | succ k =>
      rw [List.take_succ_cons]
      rcases ps with - | ⟨q, qs⟩
      · simp
      · rcases ht : (q :: qs).take k with - | ⟨r, rs⟩
        · rw [joinCharsNl_cons_cons]
          simp [joinCharsNl]
        · rw [joinCharsNl_cons_cons, joinCharsNl_cons_cons]
          have h2 := ih k
          rw [ht] at h2
          simp only [List.length_append, List.length_cons]
          omega

/-- Splitting a newline-free character list yields that single line
(or nothing, for the empty list). -/
theorem pySplit_flat : ∀ l : List Char, '\n' ∉ l →
    pySplit l = if l = [] then [] else [l] := by
  intro l
  induction l with
  | nil => intro _; simp [pySplit]
  | cons c cs ih =>
    intro h
    have hc : c ≠ '\n' := fun hcn => h (hcn ▸ List.mem_cons_self _ _)
    have hcs : '\n' ∉ cs := fun hm => h (List.mem_cons_of_mem _ hm)
    rw [pySplit_cons, if_neg hc, ih hcs]
    by_cases hemp : cs = []
    · subst hemp; simp
    · simp [hemp]

theorem pySplit_append_newline : ∀ (h : List Char), '\n' ∉ h → ∀ cs,
    pySplit (h ++ '\n' :: cs) = h :: pySplit cs := by
  intro h
  induction h with
  | nil =>
    intro _ cs
    show pySplit ('\n' :: cs) = [] :: pySplit cs
    rw [pySplit_cons, if_pos rfl]
  | cons c h ih =>
    intro hn cs
    have hc : c ≠ '\n' := fun hcn => hn (hcn ▸ List.mem_cons_self _ _)
    have hh : '\n' ∉ h := fun hm => hn (List.mem_cons_of_mem _ hm)
    show pySplit (c :: (h ++ '\n' :: cs)) = (c :: h) :: pySplit cs
    rw [pySplit_cons, if_neg hc, ih hh cs]

/-- Round trip: splitting the join of newline-free lines gives back a
prefix of those lines (everything, except a lost trailing empty line). -/
theorem pySplit_joinCharsNl_initial : ∀ ls : List (List Char), (∀ l ∈ ls, '\n' ∉ l) →
    List.IsPrefix (pySplit (joinCharsNl ls)) ls := by
  intro ls
  induction ls with
  | nil => intro _; simp [joinCharsNl, pySplit]
  | cons l ls ih =>
    intro h
    have hl : '\n' ∉ l := h l (List.mem_cons_self _ _)
    rcases ls with - | ⟨m, ms⟩
    · show List.IsPrefix (pySplit l) [l]
      rw [pySplit_flat l hl]
      by_cases hemp : l = []
      · simp [hemp]
      · simp [hemp]
    · rw [joinCharsNl_cons_cons, pySplit_append_newline l hl]
      obtain ⟨t, ht⟩ := ih (fun x hx => h x (List.mem_cons_of_mem _ hx))
      exact ⟨t, by rw [List.cons_append, ht]⟩

theorem data_mk (l : List Char) : (String.mk l).data = l := rfl

theorem string_length_data (s : String) : s.length = s.data.length := rfl

theorem string_data_append (a b : String) : (a ++ b).data = a.data ++ b.data := rfl

theorem mem_splitlines_no_newline (s : String) : ∀ x ∈ splitlines s, '\n' ∉ x.data := by
  intro x hx
  unfold splitlines at hx
  obtain ⟨l, hl, hlx⟩ := List.mem_map.mp hx
  rw [← hlx, data_mk]
  exact pySplit_no_newline s.data l hl

theorem data_comp_mk : (String.data ∘ String.mk) = id := funext fun _ => rfl

theorem mk_comp_data : (String.mk ∘ String.data) = id := funext fun _ => rfl

theorem splitlines_map_data (s : String) : (splitlines s).map String.data = pySplit s.data := by
  unfold splitlines
  rw [List.map_map, data_comp_mk, List.map_id]

/-! ### The `ast.parse` oracle and the body-recovery loop -/

/-- Modelled from the spec: the outcome of Python's `ast.parse` combined
with the `_FunctionLineVisitor` scan (`ast` is standard-library code, not
part of this repository).  `Except.error lineno` is a `SyntaxError`
carrying its 1-based line number `e.lineno`; `Except.ok endLine` is a
successful parse together with `visitor.function_end_line`, the end line
of the synthetic function `fake_function_header`. -/
def PyParse : Type := String → Except Nat Nat

/-- A parser conforming to the `SyntaxError` contract: a reported error
line lies within the parsed text. -/
def Conforming (p : PyParse) : Prop :=
  ∀ code lineno, p code = Except.error lineno →
    1 ≤ lineno ∧ lineno ≤ (splitlines code).length

/-- evaluator.py line 52: `code = f"def fake_function_header():\n{generated_code}"`. -/
def withHeader (generated_code : String) : String :=
  "def fake_function_header():\n" ++ generated_code

/-- evaluator.py lines 55-59, the `while tree is None` loop.  `fuel`
bounds the number of parse attempts; `Option.none` means the loop was
still running after `fuel` attempts.  A parse failure truncates to
`code.splitlines()[: e.lineno - 1]` joined by newlines; success returns
the surviving `code` and `visitor.function_end_line`. -/
def trimLoop (p : PyParse) : Nat → String → Option (String × Nat)
  | 0, _ => Option.none
  | fuel + 1, code =>
    match p code with
    | Except.ok endLine => some (code, endLine)
    | Except.error lineno =>
        trimLoop p fuel (joinLines ((splitlines code).take (lineno - 1)))

theorem trimLoop_succ_error (p : PyParse) (fuel : Nat) (code : String) (lineno : Nat)
    (h : p code = Except.error lineno) :
    trimLoop p (fuel + 1) code
      = trimLoop p fuel (joinLines ((splitlines code).take (lineno - 1))) := by
  show (match p code with
    | Except.ok endLine => some (code, endLine)
    | Except.error lineno =>
        trimLoop p fuel (joinLines ((splitlines code).take (lineno - 1)))) = _
  rw [h]

theorem trimLoop_succ_ok (p : PyParse) (fuel : Nat) (code : String) (endLine : Nat)
    (h : p code = Except.ok endLine) :
    trimLoop p (fuel + 1) code = some (code, endLine) := by
  show (match p code with
    | Except.ok endLine => some (code, endLine)
    | Except.error lineno =>
        trimLoop p fuel (joinLines ((splitlines code).take (lineno - 1)))) = _
  rw [h]

/-- evaluator.py lines 48-67 (`_trim_function_body`): extract the body of
the generated function, trimming anything after it.  The fuel
`(splitlines code).length + 1` suffices for every conforming parser
(`trimLoop_terminates`); `Option.none` models the Python loop spinning
forever, which a conforming parser cannot cause. -/
def _trim_function_body (p : PyParse) (generated_code : String) : Option String :=
  if generated_code = "" then some ""
  else
    match trimLoop p ((splitlines (withHeader generated_code)).length + 1)
        (withHeader generated_code) with
    | Option.none => Option.none
    | some (code, endLine) =>
      if code = "" then some ""
      else some (joinLines (((splitlines code).drop 1).take (endLine - 1)) ++ "\n\n")

/-- One truncation step keeps a prefix of the previous line list. -/
theorem splitlines_joinLines_take_initial (code : String) (k : Nat) :
    List.IsPrefix (splitlines (joinLines ((splitlines code).take k)))
      ((splitlines code).take k) := by
  unfold joinLines
  have hmap : ((splitlines code).take k).map String.data
      = (pySplit code.data).take k := by
    rw [List.map_take, splitlines_map_data]
  rw [hmap]
  have hfree : ∀ l ∈ (pySplit code.data).take k, '\n' ∉ l :=
    fun l hl => pySplit_no_newline code.data l (List.take_subset _ _ hl)
  have hpre := pySplit_joinCharsNl_initial _ hfree
  unfold splitlines
  rw [data_mk]
  obtain ⟨t, ht⟩ := hpre
  refine ⟨t.map String.mk, ?_⟩
  rw [← List.map_append, ht]
  calc ((pySplit code.data).take k).map String.mk
      = (((splitlines code).take k).map String.data).map String.mk := by rw [hmap]
    _ = (splitlines code).take k := by
        rw [List.map_map, mk_comp_data, List.map_id]

/-- One truncation step never grows the text. -/
theorem joinLines_take_length (code : String) (k : Nat) :
    (joinLines ((splitlines code).take k)).length ≤ code.length := by
  unfold joinLines
  rw [string_length_data, data_mk, string_length_data]
  have hmap : ((splitlines code).take k).map String.data
      = (pySplit code.data).take k := by
    rw [List.map_take, splitlines_map_data]
  rw [hmap]
  calc (joinCharsNl ((pySplit code.data).take k)).length
      ≤ (joinCharsNl (pySplit code.data)).length := joinCharsNl_take_length _ _
    _ ≤ code.data.length := joinCharsNl_pySplit_length _

/-- For a conforming parser the truncation loop stops within one more
parse attempt than the text has lines: the line count strictly decreases
at every failed parse. -/
theorem trimLoop_terminates (p : PyParse) (hp : Conforming p) :
    ∀ fuel code, (splitlines code).length < fuel → (trimLoop p fuel code).isSome = true := by
  intro fuel
  induction fuel with
  | zero => intro code h; omega
  | succ fuel ih =>
    intro code h
    rcases hpc : p code with lineno | endLine
    · rw [trimLoop_succ_error p fuel code lineno hpc]
      apply ih
      obtain ⟨h1, h2⟩ := hp code lineno hpc
      have hpre := splitlines_joinLines_take_initial code (lineno - 1)
      have hlen := hpre.length_le
      have htake : ((splitlines code).take (lineno - 1)).length ≤ lineno - 1 := by
        rw [List.length_take]
        omega
      omega
    · rw [trimLoop_succ_ok p fuel code endLine hpc]
      rfl

/-- The prepended synthetic header contributes exactly one extra line. -/
theorem splitlines_withHeader_length (g : String) :
    (splitlines (withHeader g)).length = (splitlines g).length + 1 := by
  have hdata : (withHeader g).data
      = "def fake_function_header():".data ++ '\n' :: g.data := by
    show ("def fake_function_header():\n" ++ g).data = _
    rw [string_data_append]
    rfl
  unfold splitlines
  rw [hdata, pySplit_append_newline "def fake_function_header():".data (by decide)]
  simp

/-- Claim C7 (amended).  For every parser conforming to the
`SyntaxError` contract, the truncation loop of `_trim_function_body`
terminates within `(number of input lines) + 2` parse attempts — the
parsed text carries one extra header line and one final successful
attempt — and every truncation step is monotone: the surviving lines are
a prefix of the previous ones and the candidate text never grows. -/
theorem trim_truncation_bounded_and_monotone (p : PyParse) (hp : Conforming p) (g : String) :
    (trimLoop p ((splitlines g).length + 2) (withHeader g)).isSome = true
    ∧ (_trim_function_body p g).isSome = true
    ∧ ∀ code lineno, p code = Except.error lineno →
        List.IsPrefix (splitlines (joinLines ((splitlines code).take (lineno - 1))))
          (splitlines code)
        ∧ (joinLines ((splitlines code).take (lineno - 1))).length ≤ code.length := by
  have hterm : (trimLoop p ((splitlines (withHeader g)).length + 1) (withHeader g)).isSome
      = true := trimLoop_terminates p hp _ _ (by omega)
  refine ⟨?_, ?_, ?_⟩
  · rw [show (splitlines g).length + 2 = (splitlines (withHeader g)).length + 1 from by
      rw [splitlines_withHeader_length]]
    exact hterm
  · unfold _trim_function_body
    by_cases hg : g = ""
    · rw [if_pos hg]; rfl
    · rw [if_neg hg]
      rcases hres : trimLoop p ((splitlines (withHeader g)).length + 1) (withHeader g)
        with - | ⟨code, endLine⟩
      · rw [hres] at hterm; exact absurd hterm (by simp)
      · show (if code = "" then some "" else
            some (joinLines (((splitlines code).drop 1).take (endLine - 1)) ++ "\n\n")).isSome
            = true
        by_cases hcode : code = ""
        · rw [if_pos hcode]; rfl
        · rw [if_neg hcode]; rfl
  · intro code lineno hfail
    refine ⟨?_, joinLines_take_length code (lineno - 1)⟩
    exact (splitlines_joinLines_take_initial code (lineno - 1)).trans ( List.take_prefix _ _)

/-- A conforming parser used to witness `trim_truncation_bounded_and_monotone`. -/
def alwaysOkParse : PyParse := fun _ => Except.ok 1

theorem trim_truncation_bounded_and_monotone_witness :
    (trimLoop alwaysOkParse ((splitlines "x").length + 2) (withHeader "x")).isSome = true :=
  (trim_truncation_bounded_and_monotone alwaysOkParse (fun _ _ h => nomatch h) "x").1

/-- A parser behaving as CPython's `ast.parse` does on the fragment
`"junk"`: the unindented line 2 fails, the bare header fails at line 1,
the empty text parses. -/
def truncationCexParse : PyParse := fun s =>
  if s = "def fake_function_header():\njunk" then Except.error 2
  else if s = "def fake_function_header():" then Except.error 1
  else Except.ok 0

/-- Claim C7 counterexample.  The fragment `"junk"` has one line, yet the
truncation loop is not finished after one parse attempt (it needs two
failures plus the final successful parse of the empty text), so the
number of iterations is NOT bounded by the number of lines of the input;
the parser used is conforming. -/
theorem trim_truncation_not_bounded_by_input_lines :
    (splitlines "junk").length = 1
    ∧ trimLoop truncationCexParse 1 (withHeader "junk") = Option.none
    ∧ trimLoop truncationCexParse 3 (withHeader "junk") = some ("", 0)
    ∧ Conforming truncationCexParse := by
  refine ⟨by decide, by decide, by decide, ?_⟩
  intro s n h
  unfold truncationCexParse at h
  split at h
  · injection h with h2
    rename_i hs
    subst hs
    subst h2
    exact ⟨by omega, by decide⟩
  · split at h
    · injection h with h2
      rename_i hs
      subst hs
      subst h2
      exact ⟨by omega, by decide⟩
    · exact absurd h (by simp)

/-- Claim C8.  On the fragment `"return 1\nif True\n"`, whose second line
is invalid and whose first line is a valid body (the parse outcomes the
spec scenario prescribes), `_trim_function_body` returns exactly
`"return 1\n\n"`. -/
theorem trim_recovers_return_fragment (p : PyParse)
    (h1 : p "def fake_function_header():\nreturn 1\nif True\n" = Except.error 3)
    (h2 : p "def fake_function_header():\nreturn 1" = Except.ok 2) :
    _trim_function_body p "return 1\nif True\n" = some "return 1\n\n" := by
  have hne : ("return 1\nif True\n" : String) ≠ "" := by decide
  unfold _trim_function_body
  rw [if_neg hne]
  have hcode : withHeader "return 1\nif True\n"
      = "def fake_function_header():\nreturn 1\nif True\n" := rfl
  have hfuel : (splitlines (withHeader "return 1\nif True\n")).length + 1 = 4 := by decide
  rw [hfuel, hcode]
  have e1 : trimLoop p 4 "def fake_function_header():\nreturn 1\nif True\n"
      = trimLoop p 3 (joinLines ((splitlines
          "def fake_function_header():\nreturn 1\nif True\n").take 2)) :=
    trimLoop_succ_error p 3 _ 3 h1
  have htrunc : joinLines ((splitlines
      "def fake_function_header():\nreturn 1\nif True\n").take 2)
      = "def fake_function_header():\nreturn 1" := by decide
  rw [e1, htrunc]
  have e2 : trimLoop p 3 "def fake_function_header():\nreturn 1"
      = some ("def fake_function_header():\nreturn 1", 2) :=
    trimLoop_succ_ok p 2 _ 2 h2
  rw [e2]
  decide

/-- A parser realising the parse outcomes of the spec scenario of C8. -/
def returnFragmentParse : PyParse := fun s =>
  if s = "def fake_function_header():\nreturn 1\nif True\n" then Except.error 3
  else if s = "def fake_function_header():\nreturn 1" then Except.ok 2
  else Except.ok 1

theorem trim_recovers_return_fragment_witness :
    _trim_function_body returnFragmentParse "return 1\nif True\n" = some "return 1\n\n" :=
  trim_recovers_return_fragment returnFragmentParse rfl rfl

/-! ### Python values, the `code_manipulation` model, and the sandbox -/

/-- Python runtime values, as far as the evaluator inspects them.
Floats are carried opaquely (the evaluator never computes with them) and
`obj` stands for any other object. -/
inductive PyVal
  | none
  | bool (b : Bool)
  | int (n : Int)
  | float (tag : Nat)
  | str (s : String)
  | obj (tag : Nat)
deriving DecidableEq

/-- evaluator.py line 176: `isinstance(test_output, (int, float))`.
Booleans pass this check because Python's `bool` is a subclass of
`int`. -/
def isNumeric : PyVal → Bool
  | PyVal.bool _ => true
  | PyVal.int _ => true
  | PyVal.float _ => true
  | _ => false

/-- Modelled from the spec (section 3): a `Function` of the
`code_manipulation` collaborator (not among the provided sources) has a
name, a parameter signature and a body. -/
structure Function where
  name : String
  args : String
  body : String
deriving DecidableEq

/-- Modelled from the spec (section 3): a `Program` of the
`code_manipulation` collaborator is a named collection of Functions. -/
structure Program where
  functions : List Function
deriving DecidableEq

/-- Find the first function with the given name. -/
def findByName : List Function → String → Option Function
  | [], _ => Option.none
  | f :: fs, name => if f.name == name then some f else findByName fs name

/-- Modelled from the spec (section 6): `program.get_function(name)`
returns a reference to the (first) function of that name; absence is a
fatal configuration error, `Option.none` here. -/
def Program.get_function (p : Program) (name : String) : Option Function :=
  findByName p.functions name

/-- The effect of `evolved_function.body = body` through the reference
`get_function` hands out: the first function called `name` gets the new
body, everything else is untouched. -/
def updateFunction : List Function → String → String → List Function
  | [], _, _ => []
  | f :: fs, name, body =>
    if f.name == name then { f with body := body } :: fs
    else f :: updateFunction fs name body

/-- The fate of one worker run of the untrusted program: it either
returns a value, raises an exception that the worker's
`except Exception` catches, terminates without ever reaching a
`queue.put` (`SystemExit`, a hard crash, an external kill), or is still
running when the deadline elapses. -/
inductive ExecOutcome
  | ret (v : PyVal)
  | exn (msg tb : String)
  | noResult
  | hang
deriving DecidableEq

/-- The environment of Python-level oracles the evaluator runs in.
`parse` abstracts `ast.parse` (standard library).  The other fields are
modelled from the spec, section 6: `rename` is
`code_manipulation.rename_function_calls(body, old, new)`, `calledNames`
is `code_manipulation.get_functions_called(program_text)`, `render` is
`str(program)`, `pyStr` is Python's `str()` on a test input, and `exec`
is the fate of the untrusted run `namespace[function_name](args)` for
the given program text, function name and input. -/
structure PyEnv where
  parse : PyParse
  rename : String → String → String → String
  calledNames : String → List String
  render : Program → String
  pyStr : PyVal → String
  exec : String → String → PyVal → ExecOutcome

/-- evaluator.py lines 89-99 (`sandbox_target`): the messages the worker
puts on the queue.  A normal return puts `(result, True)`; a caught
exception puts `(f"Error: {e}\n{tb}", False)`; a worker that dies before
putting, or that is still running at the deadline, leaves the queue
empty. -/
def sandbox_target : ExecOutcome → List (PyVal × Bool)
  | ExecOutcome.ret v => [(v, true)]
  | ExecOutcome.exn msg tb => [(PyVal.str ("Error: " ++ msg ++ "\n" ++ tb), false)]
  | ExecOutcome.noResult => []
  | ExecOutcome.hang => []

/-- `process.is_alive()` after `process.join(timeout_seconds)`. -/
def stillAlive : ExecOutcome → Bool
  | ExecOutcome.hang => true
  | _ => false

/-- evaluator.py lines 105-120 (`Sandbox.run`): spawn the worker, join it
for `timeout_seconds`, then either terminate it on timeout or read the
queue.  `Except.error` is an exception raised to the *caller* of `run`:
`queue.get_nowait()` raises `queue.Empty` when the worker terminated
without having produced a result. -/
def Sandbox.run (env : PyEnv) (program function_to_run : String) (test_input : PyVal) :
    Except String (PyVal × Bool) :=
  let outcome := env.exec program function_to_run test_input
  if stillAlive outcome then
    Except.ok (PyVal.str "Timeout Error: Code execution exceeded time limit", false)
  else
    match sandbox_target outcome with
    | r :: _ => Except.ok r
    | [] => Except.error "queue.Empty"

/-- Claim C1 (amended).  `Sandbox.run` returns a `(result, success)`
pair without raising whenever the worker either produced a result or
overran the deadline; an exception raised during the untrusted run is
captured inside the worker and returned as a failed result with
diagnostic text.  However, a worker that terminates without putting a
result on the queue makes `run` itself raise `queue.Empty` to its
caller. -/
theorem sandbox_run_reports_failures (env : PyEnv) (program fr : String) (i : PyVal) :
    ((∃ r, Sandbox.run env program fr i = Except.ok r)
      ↔ env.exec program fr i ≠ ExecOutcome.noResult)
    ∧ (∀ msg tb, env.exec program fr i = ExecOutcome.exn msg tb →
        Sandbox.run env program fr i
          = Except.ok (PyVal.str ("Error: " ++ msg ++ "\n" ++ tb), false))
    ∧ (env.exec program fr i = ExecOutcome.noResult →
        Sandbox.run env program fr i = Except.error "queue.Empty") := by
  refine ⟨?_, ?_, ?_⟩
  · unfold Sandbox.run
    rcases h : env.exec program fr i with v | ⟨msg, tb⟩ | - | - <;>
      simp [stillAlive, sandbox_target]
  · intro msg tb hc
    unfold Sandbox.run
    rw [hc]
    rfl
  · intro hc
    unfold Sandbox.run
    rw [hc]
    rfl

/-- An environment whose worker always dies without producing a result
(concretely reachable: a program whose entry point calls `sys.exit(0)`;
`SystemExit` is not an `Exception`, so the worker's handler does not
catch it and nothing is ever put on the queue). -/
def noResultEnv : PyEnv :=
  { parse := fun _ => Except.ok 1
    rename := fun body _ _ => body
    calledNames := fun _ => []
    render := fun _ => ""
    pyStr := fun _ => ""
    exec := fun _ _ _ => ExecOutcome.noResult }

theorem sandbox_run_reports_failures_witness :
    Sandbox.run noResultEnv "p" "f" PyVal.none = Except.error "queue.Empty" :=
  (sandbox_run_reports_failures noResultEnv "p" "f" PyVal.none).2.2 rfl

/-- Claim C1 counterexample.  When the worker terminates without
producing a result (e.g. the program calls `sys.exit(0)`, which
`except Exception` does not catch), `Sandbox.run` does not return a
`(result, success)` pair: `queue.get_nowait()` raises `queue.Empty`
across the boundary to the caller. -/
theorem sandbox_run_raises_on_missing_result :
    Sandbox.run noResultEnv "p" "f" PyVal.none = Except.error "queue.Empty"
    ∧ ¬∃ r, Sandbox.run noResultEnv "p" "f" PyVal.none = Except.ok r := by
  refine ⟨rfl, ?_⟩
  rintro ⟨r, hr⟩
  rw [show Sandbox.run noResultEnv "p" "f" PyVal.none = Except.error "queue.Empty" from rfl]
    at hr
  cases hr

/-- An environment whose worker is still running when the deadline
elapses (an infinite loop in the entry point). -/
def hangEnv : PyEnv :=
  { parse := fun _ => Except.ok 1
    rename := fun body _ _ => body
    calledNames := fun _ => []
    render := fun _ => ""
    pyStr := fun _ => ""
    exec := fun _ _ _ => ExecOutcome.hang }

/-- Claim C3 counterexample.  On timeout `Sandbox.run` returns
`("Timeout Error: Code execution exceeded time limit", False)`
(evaluator.py line 117) — not the exact pair
`("Timeout Error: execution exceeded time limit", false)` the claim
states: the actual diagnostic says "Code execution", the claimed one
"execution". -/
theorem sandbox_timeout_message_differs :
    Sandbox.run hangEnv "p" "f" PyVal.none
      = Except.ok (PyVal.str "Timeout Error: Code execution exceeded time limit", false)
    ∧ "Timeout Error: Code execution exceeded time limit"
        ≠ "Timeout Error: execution exceeded time limit"
    ∧ Sandbox.run hangEnv "p" "f" PyVal.none
        ≠ Except.ok (PyVal.str "Timeout Error: execution exceeded time limit", false) := by
  refine ⟨rfl, by decide, ?_⟩
  intro h
  rw [show Sandbox.run hangEnv "p" "f" PyVal.none
      = Except.ok (PyVal.str "Timeout Error: Code execution exceeded time limit", false)
      from rfl] at h
  injection h with h1
  injection h1 with h2 h3
  injection h2 with h4
  exact absurd h4 (by decide)

/-- Claim C3 (amended).  If the worker is still running when the
deadline elapses, `Sandbox.run` terminates it and returns exactly the
pair `("Timeout Error: Code execution exceeded time limit", False)` —
failed, with the distinguishable "Timeout Error" prefix. -/
theorem sandbox_timeout_pair (env : PyEnv) (program fr : String) (i : PyVal)
    (h : env.exec program fr i = ExecOutcome.hang) :
    Sandbox.run env program fr i
      = Except.ok (PyVal.str "Timeout Error: Code execution exceeded time limit", false) := by
  unfold Sandbox.run
  rw [h]
  rfl

theorem sandbox_timeout_pair_witness :
    Sandbox.run hangEnv "p" "f" PyVal.none
      = Except.ok (PyVal.str "Timeout Error: Code execution exceeded time limit", false) :=
  sandbox_timeout_pair hangEnv "p" "f" PyVal.none rfl

/-! ### Program assembly (`_sample_to_program`) -/

/-- evaluator.py lines 78-81: if a version tag is present, rewrite calls
to `f"{function_to_evolve}_v{version_generated}"` in the recovered body
into calls to `function_to_evolve`. -/
def renameIfVersioned (env : PyEnv) (function_to_evolve : String) (version_generated : Option Nat)
    (body0 : String) : String :=
  match version_generated with
  | some v => env.rename body0 (function_to_evolve ++ "_v" ++ toString v) function_to_evolve
  | Option.none => body0

/-- evaluator.py lines 83-86: deep-copy the template, look up the
function to evolve (fatally absent ⇒ `Option.none`), assign the new body
through the reference `get_function` returned, and hand back the mutated
Function together with the assembled program. -/
def spliceBody (template : Program) (function_to_evolve : String) (body : String) :
    Option (Function × Program) :=
  match template.get_function function_to_evolve with
  | Option.none => Option.none
  | some f =>
    some ({ f with body := body },
      ⟨updateFunction template.functions function_to_evolve body⟩)

/-- evaluator.py lines 70-86 (`_sample_to_program`).  `Option.none`
covers the fatal cases: a diverging parse loop, or a template without
the target function. -/
def _sample_to_program (env : PyEnv) (generated_code : String)
    (version_generated : Option Nat) (template : Program)
    (function_to_evolve : String) : Option (Function × Program) :=
  match _trim_function_body env.parse generated_code with
  | Option.none => Option.none
  | some body0 =>
    spliceBody template function_to_evolve
      (renameIfVersioned env function_to_evolve version_generated body0)

theorem findByName_cons (a : Function) (l : List Function) (name : String) :
    findByName (a :: l) name = if a.name == name then some a else findByName l name := rfl

/-- The function found carries the name looked up. -/
theorem findByName_name (name : String) : ∀ l f, findByName l name = some f → f.name = name := by
  intro l
  induction l with
  | nil => intro f hf; cases hf
  | cons a l ih =>
    intro f hf
    rw [findByName_cons] at hf
    by_cases hp : (a.name == name) = true
    · rw [if_pos hp] at hf
      injection hf with hf
      subst hf
      exact beq_iff_eq.mp hp
    · rw [if_neg hp] at hf
      exact ih f hf

/-- `findByName` finds the first match and `updateFunction` rewrites
exactly that occurrence. -/
theorem find_update_decomp (name body : String) : ∀ l : List Function,
    (∀ f, findByName l name = some f →
      ∃ l₁ l₂, l = l₁ ++ f :: l₂ ∧ (∀ g ∈ l₁, g.name ≠ name)
        ∧ updateFunction l name body = l₁ ++ { f with body := body } :: l₂)
    ∧ (findByName l name = Option.none →
        updateFunction l name body = l) := by
  intro l
  induction l with
  | nil =>
    exact ⟨fun f hf => (nomatch hf), fun _ => rfl⟩
  | cons a l ih =>
    constructor
    · intro f hf
      rw [findByName_cons] at hf
      by_cases hp : (a.name == name) = true
      · rw [if_pos hp] at hf
        injection hf with hf
        subst hf
        refine ⟨[], l, by simp, by simp, ?_⟩
        show updateFunction (a :: l) name body = [] ++ { a with body := body } :: l
        unfold updateFunction
        rw [if_pos hp]
        rfl
      · rw [if_neg hp] at hf
        obtain ⟨l₁, l₂, he, hn, hu⟩ := ih.1 f hf
        refine ⟨a :: l₁, l₂, by rw [he]; rfl, ?_, ?_⟩
        · intro g hg
          rcases List.mem_cons.mp hg with hg | hg
          · subst hg
            exact fun heq => hp (beq_iff_eq.mpr heq)
          · exact hn g hg
        · show updateFunction (a :: l) name body = a :: (l₁ ++ { f with body := body } :: l₂)
          unfold updateFunction
          rw [if_neg hp, hu]
    · intro hf
      rw [findByName_cons] at hf
      by_cases hp : (a.name == name) = true
      · rw [if_pos hp] at hf
        cases hf
      · rw [if_neg hp] at hf
        unfold updateFunction
        rw [if_neg hp, ih.2 hf]

/-- Claim C4 (amended).  Assembly never touches the template value: the
assembled program has exactly the template's functions except that the
first function named `function_to_evolve` — which must exist — carries
the recovered body; its name and signature are preserved, every other
function is untouched, so the assembled program differs from the
template in AT MOST that one function's body (and in nothing else).
Sharing of mutable state is not representable here: assembly is a pure
function of the template, which models the deep copy. -/
theorem sample_to_program_frame (env : PyEnv) (sample : String) (vg : Option Nat)
    (template : Program) (fte : String) (fn : Function) (prog : Program)
    (h : _sample_to_program env sample vg template fte = some (fn, prog)) :
    ∃ l₁ f l₂, template.functions = l₁ ++ f :: l₂
      ∧ (∀ g ∈ l₁, g.name ≠ fte)
      ∧ f.name = fte
      ∧ prog.functions = l₁ ++ { f with body := fn.body } :: l₂
      ∧ fn.name = f.name ∧ fn.args = f.args := by
  unfold _sample_to_program at h
  rcases htrim : _trim_function_body env.parse sample with - | body0
  · rw [htrim] at h; cases h
  · rw [htrim] at h
    unfold spliceBody at h
    rcases hget : template.get_function fte with - | f
    · rw [hget] at h; cases h
    · rw [hget] at h
      injection h with h
      rw [Prod.mk.injEq] at h
      obtain ⟨h1, h2⟩ := h
      subst h1
      subst h2
      unfold Program.get_function at hget
      obtain ⟨l₁, l₂, he, hn, hu⟩ :=
        (find_update_decomp fte (renameIfVersioned env fte vg body0) template.functions).1 f hget
      have hname : f.name = fte := findByName_name fte template.functions f hget
      exact ⟨l₁, f, l₂, he, hn, hname, hu, rfl, rfl⟩

/-- The environment of the C4 counterexample: the parser accepts the
one-line body immediately. -/
def echoEnv : PyEnv :=
  { parse := fun _ => Except.ok 2
    rename := fun body _ _ => body
    calledNames := fun _ => []
    render := fun _ => ""
    pyStr := fun _ => ""
    exec := fun _ _ _ => ExecOutcome.ret (PyVal.int 0) }

/-- The template of the C4 counterexample: its single function already
carries exactly the body the recovery of `"  return 1"` produces. -/
def echoFunction : Function := { name := "f", args := "x", body := "  return 1\n\n" }

/-- The template holding `echoFunction`. -/
def echoTemplate : Program := ⟨[echoFunction]⟩

/-- Claim C4 counterexample.  When the recovered body coincides with the
template's existing body, the assembled program IS the template value:
it differs from the template in zero functions' bodies, not in "exactly
one".  Here the fragment `"  return 1"` recovers to `"  return 1\n\n"`,
which is already the body of the only function of the template. -/
theorem sample_to_program_zero_difference :
    _sample_to_program echoEnv "  return 1" Option.none echoTemplate "f"
      = some (echoFunction, echoTemplate)
    ∧ echoFunction.body = "  return 1\n\n" := by
  refine ⟨?_, rfl⟩
  rfl

theorem sample_to_program_frame_witness :
    ∃ l₁ f l₂, echoTemplate.functions = l₁ ++ f :: l₂
      ∧ (∀ g ∈ l₁, g.name ≠ "f")
      ∧ f.name = "f"
      ∧ echoTemplate.functions = l₁ ++ { f with body := echoFunction.body } :: l₂
      ∧ echoFunction.name = f.name ∧ echoFunction.args = f.args :=
  sample_to_program_frame echoEnv "  return 1" Option.none echoTemplate "f"
    echoFunction echoTemplate rfl

/-! ### The evaluator loop and the admission filter -/

/-- evaluator.py lines 123-132 (`_calls_ancestor`): some function name
called in the program text starts with `f"{function_to_evolve}_v"`
(Python's `str.startswith`). -/
def _calls_ancestor (env : PyEnv) (program function_to_evolve : String) : Bool :=
  (env.calledNames program).any
    (fun name => (function_to_evolve ++ "_v").data.isPrefixOf name.data)

/-- Modelled from the spec: the ancestor pattern as the spec words it —
a name matching `<function_to_evolve>_v<digits>`, i.e. the prefix
followed by a non-empty all-digit suffix.  The code checks only the
prefix. -/
def specAncestorPattern (function_to_evolve name : String) : Bool :=
  (function_to_evolve ++ "_v").data.isPrefixOf name.data
    && (let rest := name.data.drop (function_to_evolve ++ "_v").data.length
        !rest.isEmpty && rest.all Char.isDigit)

/-- Modelled from the spec: the ancestor scan under the spec's
`_v<digits>` pattern. -/
def spec_calls_ancestor (env : PyEnv) (program function_to_evolve : String) : Bool :=
  (env.calledNames program).any (specAncestorPattern function_to_evolve)

/-- One `register_program(new_function, island_id, scores_per_test)`
call into the programs database collaborator (modelled from the spec,
section 6). -/
structure Registration where
  fn : Function
  island_id : Option Int
  scores : List (String × PyVal)
deriving DecidableEq

/-- The construction-time configuration of an `Evaluator`
(evaluator.py lines 138-153); `timeout_seconds` is absorbed into
`PyEnv.exec`, whose outcome already reflects the deadline. -/
structure EvalCfg where
  template : Program
  function_to_evolve : String
  function_to_run : String
  inputs : List PyVal

/-- Python dict assignment `scores_per_test[str(current_input)] = v`:
overwrite the entry in place if the key exists, else append it. -/
def dictInsert (m : List (String × PyVal)) (k : String) (v : PyVal) :
    List (String × PyVal) :=
  if m.any (fun e => e.1 == k) then m.map (fun e => if e.1 == k then (k, v) else e)
  else m ++ [(k, v)]

/-- evaluator.py lines 166-178, the `for current_input in self._inputs`
loop.  `Except.error` is an exception propagating out of `analyse`: the
`ValueError` of line 177, or the `queue.Empty` that `Sandbox.run` itself
may raise. -/
def analyseLoop (env : PyEnv) (program function_to_run function_to_evolve : String) :
    List PyVal → List (String × PyVal) → Except String (List (String × PyVal))
  | [], scores_per_test => Except.ok scores_per_test
  | current_input :: rest, scores_per_test =>
    match Sandbox.run env program function_to_run current_input with
    | Except.error e => Except.error e
    | Except.ok (test_output, runs_ok) =>
      if runs_ok = true ∧ _calls_ancestor env program function_to_evolve = false
          ∧ test_output ≠ PyVal.none then
        if isNumeric test_output = false then
          Except.error "@function.run did not return an int/float score."
        else
          analyseLoop env program function_to_run function_to_evolve rest
            (dictInsert scores_per_test (env.pyStr current_input) test_output)
      else
        analyseLoop env program function_to_run function_to_evolve rest scores_per_test

/-- The observable outcome of one `analyse` call: the exception it
raised (if any), the score map its loop computed, and the database —
the list of `register_program` calls made so far — after the call. -/
structure AnalyseOut where
  raised : Option String
  scores : List (String × PyVal)
  db : List Registration
deriving DecidableEq

/-- evaluator.py lines 155-180 (`Evaluator.analyse`): assemble the
program, run every configured test input, and register the new function
with the database exactly when the score map is non-empty.  `db` is the
database when the call starts; a raised exception leaves it untouched
(`register_program` runs only after the loop).  The `Option.none` branch
of `_sample_to_program` — a fatal assembly failure — also surfaces as a
raise. -/
def Evaluator.analyse (env : PyEnv) (cfg : EvalCfg) (db : List Registration)
    (sample : String) (island_id : Option Int) (version_generated : Option Nat) :
    AnalyseOut :=
  match _sample_to_program env sample version_generated cfg.template
      cfg.function_to_evolve with
  | Option.none => { raised := some "assembly failed", scores := [], db := db }
  | some (new_function, prog) =>
    match analyseLoop env (env.render prog) cfg.function_to_run cfg.function_to_evolve
        cfg.inputs [] with
    | Except.error e => { raised := some e, scores := [], db := db }
    | Except.ok scores_per_test =>
      { raised := Option.none
        scores := scores_per_test
        db := if scores_per_test.isEmpty then db
              else db ++ [⟨new_function, island_id, scores_per_test⟩] }

/-- The admission condition of evaluator.py lines 171-178 for one test
input: the run succeeded, the scan found no ancestor call, the output is
non-null, and it is numeric (so the `ValueError` is not raised). -/
def admitted (env : PyEnv) (program function_to_run function_to_evolve : String)
    (i : PyVal) : Prop :=
  ∃ o, Sandbox.run env program function_to_run i = Except.ok (o, true)
    ∧ _calls_ancestor env program function_to_evolve = false
    ∧ o ≠ PyVal.none ∧ isNumeric o = true

/-! ### Dictionary lemmas -/

theorem dictInsert_self_mem (m : List (String × PyVal)) (k : String) (v : PyVal) :
    (k, v) ∈ dictInsert m k v := by
  unfold dictInsert
  by_cases hany : (m.any (fun e => e.1 == k)) = true
  · rw [if_pos hany]
    obtain ⟨e0, he0, hk0⟩ := List.any_eq_true.mp hany
    exact List.mem_map.mpr ⟨e0, he0, by rw [if_pos hk0]⟩
  · rw [if_neg hany]
    exact List.mem_append_right _ (List.mem_singleton.mpr rfl)

theorem dictInsert_mem_of_ne (m : List (String × PyVal)) (k : String) (v : PyVal)
    (q : String) (w : PyVal) (h : q ≠ k) :
    ((q, w) ∈ dictInsert m k v) ↔ (q, w) ∈ m := by
  unfold dictInsert
  by_cases hany : (m.any (fun e => e.1 == k)) = true
  · rw [if_pos hany]
    constructor
    · intro hw
      obtain ⟨e, he, hew⟩ := List.mem_map.mp hw
      by_cases hek : (e.1 == k) = true
      · rw [if_pos hek] at hew
        rw [Prod.mk.injEq] at hew
        exact absurd hew.1.symm h
      · rw [if_neg hek] at hew
        exact hew ▸ he
    · intro hw
      refine List.mem_map.mpr ⟨(q, w), hw, ?_⟩
      rw [if_neg (fun hc => h (beq_iff_eq.mp hc))]
  · rw [if_neg hany]
    constructor
    · intro hw
      rcases List.mem_append.mp hw with hw | hw
      · exact hw
      · have := List.mem_singleton.mp hw
        rw [Prod.mk.injEq] at this
        exact absurd this.1 h
    · exact fun hw => List.mem_append_left _ hw

theorem dictInsert_key_mem (m : List (String × PyVal)) (k : String) (v : PyVal)
    (q : String) :
    (∃ w, (q, w) ∈ dictInsert m k v) ↔ (∃ w, (q, w) ∈ m) ∨ q = k := by
  by_cases hqk : q = k
  · subst hqk
    exact iff_of_true ⟨v, dictInsert_self_mem m q v⟩ (Or.inr rfl)
  · constructor
    · rintro ⟨w, hw⟩
      exact Or.inl ⟨w, (dictInsert_mem_of_ne m k v q w hqk).mp hw⟩
    · rintro (⟨w, hw⟩ | hk)
      · exact ⟨w, (dictInsert_mem_of_ne m k v q w hqk).mpr hw⟩
      · exact absurd hk hqk

/-! ### Loop lemmas -/

theorem analyseLoop_cons_error (env : PyEnv) (ps fr fe : String) (i : PyVal)
    (rest : List PyVal) (m : List (String × PyVal)) (e : String)
    (h : Sandbox.run env ps fr i = Except.error e) :
    analyseLoop env ps fr fe (i :: rest) m = Except.error e := by
  show (match Sandbox.run env ps fr i with
    | Except.error e => Except.error e
    | Except.ok (test_output, runs_ok) =>
      if runs_ok = true ∧ _calls_ancestor env ps fe = false
          ∧ test_output ≠ PyVal.none then
        if isNumeric test_output = false then
          Except.error "@function.run did not return an int/float score."
        else
          analyseLoop env ps fr fe rest (dictInsert m (env.pyStr i) test_output)
      else
        analyseLoop env ps fr fe rest m) = _
  rw [h]

theorem analyseLoop_cons_ok (env : PyEnv) (ps fr fe : String) (i : PyVal)
    (rest : List PyVal) (m : List (String × PyVal)) (o : PyVal) (s : Bool)
    (h : Sandbox.run env ps fr i = Except.ok (o, s)) :
    analyseLoop env ps fr fe (i :: rest) m =
      if s = true ∧ _calls_ancestor env ps fe = false ∧ o ≠ PyVal.none then
        if isNumeric o = false then
          Except.error "@function.run did not return an int/float score."
        else analyseLoop env ps fr fe rest (dictInsert m (env.pyStr i) o)
      else analyseLoop env ps fr fe rest m := by
  show (match Sandbox.run env ps fr i with
    | Except.error e => Except.error e
    | Except.ok (test_output, runs_ok) =>
      if runs_ok = true ∧ _calls_ancestor env ps fe = false
          ∧ test_output ≠ PyVal.none then
        if isNumeric test_output = false then
          Except.error "@function.run did not return an int/float score."
        else
          analyseLoop env ps fr fe rest (dictInsert m (env.pyStr i) test_output)
      else
        analyseLoop env ps fr fe rest m) = _
  rw [h]

/-- Key membership in the final score map: exactly the initial keys plus
the representations of the admitted inputs. -/
theorem analyseLoop_ok_mem (env : PyEnv) (ps fr fe : String) :
    ∀ (inputs : List PyVal) (m0 m : List (String × PyVal)),
      analyseLoop env ps fr fe inputs m0 = Except.ok m →
      ∀ q, (∃ w, (q, w) ∈ m) ↔
        ((∃ w, (q, w) ∈ m0)
          ∨ ∃ i, i ∈ inputs ∧ env.pyStr i = q ∧ admitted env ps fr fe i) := by
  intro inputs
  induction inputs with
  | nil =>
    intro m0 m h q
    injection h with h
    subst h
    simp
  | cons i rest ih =>
    intro m0 m h q
    rcases hrun : Sandbox.run env ps fr i with e | ⟨o, s⟩
    · rw [analyseLoop_cons_error env ps fr fe i rest m0 e hrun] at h
      cases h
    · rw [analyseLoop_cons_ok env ps fr fe i rest m0 o s hrun] at h
      by_cases hcond : s = true ∧ _calls_ancestor env ps fe = false ∧ o ≠ PyVal.none
      · rw [if_pos hcond] at h
        by_cases hnum : isNumeric o = false
        · rw [if_pos hnum] at h; cases h
        · rw [if_neg hnum] at h
          have hnum' : isNumeric o = true := by
            cases hiso : isNumeric o
            · exact absurd hiso hnum
            · rfl
          have hadm : admitted env ps fr fe i :=
            ⟨o, by rw [hrun, hcond.1], hcond.2.1, hcond.2.2, hnum'⟩
          have hmem := ih (dictInsert m0 (env.pyStr i) o) m h q
          rw [hmem, dictInsert_key_mem]
          constructor
          · rintro ((hm0 | hq) | ⟨j, hj, hjq, hadmj⟩)
            · exact Or.inl hm0
            · exact Or.inr ⟨i, List.mem_cons_self _ _, hq.symm, hadm⟩
            · exact Or.inr ⟨j, List.mem_cons_of_mem _ hj, hjq, hadmj⟩
          · rintro (hm0 | ⟨j, hj, hjq, hadmj⟩)
            · exact Or.inl (Or.inl hm0)
            · rcases List.mem_cons.mp hj with rfl | hj
              · exact Or.inl (Or.inr hjq.symm)
              · exact Or.inr ⟨j, hj, hjq, hadmj⟩
      · rw [if_neg hcond] at h
        have hnadm : ¬ admitted env ps fr fe i := by
          rintro ⟨o', ho', hanc, hnn, hnum⟩
          rw [hrun] at ho'
          injection ho' with ho'
          rw [Prod.mk.injEq] at ho'
          obtain ⟨h1, h2⟩ := ho'
          refine hcond ⟨h2, hanc, ?_⟩
          rw [h1]
          exact hnn
        have hmem := ih m0 m h q
        rw [hmem]
        constructor
        · rintro (hm0 | ⟨j, hj, hjq, hadmj⟩)
          · exact Or.inl hm0
          · exact Or.inr ⟨j, List.mem_cons_of_mem _ hj, hjq, hadmj⟩
        · rintro (hm0 | ⟨j, hj, hjq, hadmj⟩)
          · exact Or.inl hm0
          · rcases List.mem_cons.mp hj with rfl | hj
            · exact absurd hadmj hnadm
            · exact Or.inr ⟨j, hj, hjq, hadmj⟩

/-- Entries whose key is the representation of no remaining input
survive the loop untouched. -/
theorem analyseLoop_preserves (env : PyEnv) (ps fr fe : String) :
    ∀ (inputs : List PyVal) (m0 m : List (String × PyVal)),
      analyseLoop env ps fr fe inputs m0 = Except.ok m →
      ∀ q w, q ∉ inputs.map env.pyStr → (((q, w) ∈ m) ↔ (q, w) ∈ m0) := by
  intro inputs
  induction inputs with
  | nil =>
    intro m0 m h q w _
    injection h with h
    subst h
    exact Iff.rfl
  | cons i rest ih =>
    intro m0 m h q w hq
    have hqi : q ≠ env.pyStr i := by
      intro hc
      exact hq (hc ▸ List.mem_map_of_mem env.pyStr (List.mem_cons_self i rest))
    have hqrest : q ∉ rest.map env.pyStr := by
      intro hc
      apply hq
      rw [List.map_cons]
      exact List.mem_cons_of_mem _ hc
    rcases hrun : Sandbox.run env ps fr i with e | ⟨o, s⟩
    · rw [analyseLoop_cons_error env ps fr fe i rest m0 e hrun] at h
      cases h
    · rw [analyseLoop_cons_ok env ps fr fe i rest m0 o s hrun] at h
      by_cases hcond : s = true ∧ _calls_ancestor env ps fe = false ∧ o ≠ PyVal.none
      · rw [if_pos hcond] at h
        by_cases hnum : isNumeric o = false
        · rw [if_pos hnum] at h; cases h
        · rw [if_neg hnum] at h
          rw [ih (dictInsert m0 (env.pyStr i) o) m h q w hqrest]
          exact dictInsert_mem_of_ne m0 (env.pyStr i) o q w hqi
      · rw [if_neg hcond] at h
        exact ih m0 m h q w hqrest

/-- An admitted input's score is present in the final map (under
distinct input representations). -/
theorem analyseLoop_records (env : PyEnv) (ps fr fe : String) :
    ∀ (inputs : List PyVal) (m0 m : List (String × PyVal)),
      analyseLoop env ps fr fe inputs m0 = Except.ok m →
      (inputs.map env.pyStr).Nodup →
      ∀ i o, i ∈ inputs →
        Sandbox.run env ps fr i = Except.ok (o, true) →
        _calls_ancestor env ps fe = false → o ≠ PyVal.none → isNumeric o = true →
        (env.pyStr i, o) ∈ m := by
  intro inputs
  induction inputs with
  | nil =>
    intro m0 m _ _ i o hi
    exact absurd hi (List.not_mem_nil i)
  | cons j rest ih =>
    intro m0 m h hnodup i o hi hrun hanc hnn hnum
    rw [List.map_cons] at hnodup
    obtain ⟨hjnotin, hnodup'⟩ := List.nodup_cons.mp hnodup
    rcases List.mem_cons.mp hi with rfl | hi
    · rw [analyseLoop_cons_ok env ps fr fe i rest m0 o true hrun,
        if_pos ⟨rfl, hanc, hnn⟩, if_neg (by simp [hnum])] at h
      rw [analyseLoop_preserves env ps fr fe rest _ m h (env.pyStr i) o hjnotin]
      exact dictInsert_self_mem m0 (env.pyStr i) o
    · rcases hrunj : Sandbox.run env ps fr j with e | ⟨o', s'⟩
      · rw [analyseLoop_cons_error env ps fr fe j rest m0 e hrunj] at h
        cases h
      · rw [analyseLoop_cons_ok env ps fr fe j rest m0 o' s' hrunj] at h
        by_cases hcond : s' = true ∧ _calls_ancestor env ps fe = false ∧ o' ≠ PyVal.none
        · rw [if_pos hcond] at h
          by_cases hnum' : isNumeric o' = false
          · rw [if_pos hnum'] at h; cases h
          · rw [if_neg hnum'] at h
            exact ih _ m h hnodup' i o hi hrun hanc hnn hnum
        · rw [if_neg hcond] at h
          exact ih m0 m h hnodup' i o hi hrun hanc hnn hnum

/-- If every input's run returns a pair and every accepted output is
numeric, the loop raises nothing. -/
theorem analyseLoop_total (env : PyEnv) (ps fr fe : String) :
    ∀ (inputs : List PyVal) (m0 : List (String × PyVal)),
      (∀ i ∈ inputs, ∃ o s, Sandbox.run env ps fr i = Except.ok (o, s)
        ∧ ((s = true ∧ _calls_ancestor env ps fe = false ∧ o ≠ PyVal.none) →
            isNumeric o = true)) →
      ∃ m, analyseLoop env ps fr fe inputs m0 = Except.ok m := by
  intro inputs
  induction inputs with
  | nil => exact fun m0 _ => ⟨m0, rfl⟩
  | cons i rest ih =>
    intro m0 hh
    obtain ⟨o, s, hrun, himp⟩ := hh i (List.mem_cons_self i rest)
    rw [analyseLoop_cons_ok env ps fr fe i rest m0 o s hrun]
    by_cases hcond : s = true ∧ _calls_ancestor env ps fe = false ∧ o ≠ PyVal.none
    · rw [if_pos hcond, if_neg (by simp [himp hcond])]
      exact ih (dictInsert m0 (env.pyStr i) o)
        (fun j hj => hh j (List.mem_cons_of_mem _ hj))
    · rw [if_neg hcond]
      exact ih m0 (fun j hj => hh j (List.mem_cons_of_mem _ hj))

/-- A violating input — accepted but non-numeric — makes the loop raise
(as does any earlier run-level exception). -/
theorem analyseLoop_raises (env : PyEnv) (ps fr fe : String) :
    ∀ (inputs : List PyVal) (m0 : List (String × PyVal)),
      (∃ i, i ∈ inputs ∧ ∃ o, Sandbox.run env ps fr i = Except.ok (o, true)
        ∧ _calls_ancestor env ps fe = false ∧ o ≠ PyVal.none ∧ isNumeric o = false) →
      ∃ e, analyseLoop env ps fr fe inputs m0 = Except.error e := by
  intro inputs
  induction inputs with
  | nil =>
    rintro m0 ⟨i, hi, -⟩
    exact absurd hi (List.not_mem_nil i)
  | cons j rest ih =>
    rintro m0 ⟨i, hi, o, hrun, hanc, hnn, hnum⟩
    rcases List.mem_cons.mp hi with rfl | hi
    · rw [analyseLoop_cons_ok env ps fr fe i rest m0 o true hrun,
        if_pos ⟨rfl, hanc, hnn⟩, if_pos hnum]
      exact ⟨_, rfl⟩
    · rcases hrunj : Sandbox.run env ps fr j with e | ⟨o', s'⟩
      · rw [analyseLoop_cons_error env ps fr fe j rest m0 e hrunj]
        exact ⟨e, rfl⟩
      · rw [analyseLoop_cons_ok env ps fr fe j rest m0 o' s' hrunj]
        by_cases hcond : s' = true ∧ _calls_ancestor env ps fe = false ∧ o' ≠ PyVal.none
        · rw [if_pos hcond]
          by_cases hnum' : isNumeric o' = false
          · rw [if_pos hnum']
            exact ⟨_, rfl⟩
          · rw [if_neg hnum']
            exact ih _ ⟨i, hi, o, hrun, hanc, hnn, hnum⟩
        · rw [if_neg hcond]
          exact ih m0 ⟨i, hi, o, hrun, hanc, hnn, hnum⟩

/-! ### Dispatch equations for `Evaluator.analyse` -/

theorem analyse_eq_none (env : PyEnv) (cfg : EvalCfg) (db : List Registration)
    (sample : String) (isl : Option Int) (vg : Option Nat)
    (h : _sample_to_program env sample vg cfg.template cfg.function_to_evolve
      = Option.none) :
    Evaluator.analyse env cfg db sample isl vg
      = { raised := some "assembly failed", scores := [], db := db } := by
  unfold Evaluator.analyse
  rw [h]

theorem analyse_loop_error (env : PyEnv) (cfg : EvalCfg) (db : List Registration)
    (sample : String) (isl : Option Int) (vg : Option Nat) (fn : Function) (prog : Program)
    (e : String)
    (hsp : _sample_to_program env sample vg cfg.template cfg.function_to_evolve
      = some (fn, prog))
    (hloop : analyseLoop env (env.render prog) cfg.function_to_run cfg.function_to_evolve
      cfg.inputs [] = Except.error e) :
    Evaluator.analyse env cfg db sample isl vg
      = { raised := some e, scores := [], db := db } := by
  unfold Evaluator.analyse
  rw [hsp]
  show (match analyseLoop env (env.render prog) cfg.function_to_run cfg.function_to_evolve
      cfg.inputs [] with
    | Except.error e => ({ raised := some e, scores := [], db := db } : AnalyseOut)
    | Except.ok scores_per_test =>
      { raised := Option.none
        scores := scores_per_test
        db := if scores_per_test.isEmpty then db
              else db ++ [Registration.mk fn isl scores_per_test] }) = _
  rw [hloop]

theorem analyse_loop_ok (env : PyEnv) (cfg : EvalCfg) (db : List Registration)
    (sample : String) (isl : Option Int) (vg : Option Nat) (fn : Function) (prog : Program)
    (m : List (String × PyVal))
    (hsp : _sample_to_program env sample vg cfg.template cfg.function_to_evolve
      = some (fn, prog))
    (hloop : analyseLoop env (env.render prog) cfg.function_to_run cfg.function_to_evolve
      cfg.inputs [] = Except.ok m) :
    Evaluator.analyse env cfg db sample isl vg
      = { raised := Option.none
          scores := m
          db := if m.isEmpty then db else db ++ [⟨fn, isl, m⟩] } := by
  unfold Evaluator.analyse
  rw [hsp]
  show (match analyseLoop env (env.render prog) cfg.function_to_run cfg.function_to_evolve
      cfg.inputs [] with
    | Except.error e => ({ raised := some e, scores := [], db := db } : AnalyseOut)
    | Except.ok scores_per_test =>
      { raised := Option.none
        scores := scores_per_test
        db := if scores_per_test.isEmpty then db
              else db ++ [Registration.mk fn isl scores_per_test] }) = _
  rw [hloop]

/-! ### Shared concrete instances for the evaluator claims -/

/-- A one-function template used by the concrete evaluator instances. -/
def baseFunction : Function := { name := "f", args := "x", body := "  pass\n" }

/-- The template holding `baseFunction`. -/
def baseTemplate : Program := ⟨[baseFunction]⟩

/-- An environment whose second test input breaks the scoring contract:
input `0` scores `5`, every other input returns the text `"ok"`. -/
def violEnv : PyEnv :=
  { parse := fun _ => Except.ok 2
    rename := fun body _ _ => body
    calledNames := fun _ => []
    render := fun _ => "P"
    pyStr := fun v => if v = PyVal.int 0 then "0" else "1"
    exec := fun _ _ v =>
      if v = PyVal.int 0 then ExecOutcome.ret (PyVal.int 5)
      else ExecOutcome.ret (PyVal.str "ok") }

/-- Two test inputs: the first is accepted with a numeric score, the
second violates the contract. -/
def violCfg : EvalCfg :=
  { template := baseTemplate
    function_to_evolve := "f"
    function_to_run := "main"
    inputs := [PyVal.int 0, PyVal.int 1] }

/-- The mutated function assembled from the sample `"  return x"`. -/
def violFunction : Function := { name := "f", args := "x", body := "  return x\n\n" }

/-- A database holding one earlier registration. -/
def seedDb : List Registration :=
  [⟨baseFunction, Option.none, [("seed", PyVal.int 1)]⟩]

/-! ### Claims C9, C6, C5, C2, C10 -/

/-- Claim C9.  If `analyse` raises — in particular the non-numeric-score
`ValueError` — the database is left untouched by that call:
`register_program` runs only after the loop, so even scores already
accepted for earlier test inputs in the same call are discarded. -/
theorem analyse_raise_leaves_db_unchanged (env : PyEnv) (cfg : EvalCfg)
    (db : List Registration) (sample : String) (isl : Option Int) (vg : Option Nat)
    (h : (Evaluator.analyse env cfg db sample isl vg).raised.isSome = true) :
    (Evaluator.analyse env cfg db sample isl vg).db = db := by
  rcases hsp : _sample_to_program env sample vg cfg.template cfg.function_to_evolve
    with - | ⟨fn, prog⟩
  · rw [analyse_eq_none env cfg db sample isl vg hsp]
  · rcases hloop : analyseLoop env (env.render prog) cfg.function_to_run
      cfg.function_to_evolve cfg.inputs [] with e | m
    · rw [analyse_loop_error env cfg db sample isl vg fn prog e hsp hloop]
    · rw [analyse_loop_ok env cfg db sample isl vg fn prog m hsp hloop] at h
      exact absurd h (by simp)

theorem analyse_raise_leaves_db_unchanged_witness :
    (Evaluator.analyse violEnv violCfg seedDb "  return x" Option.none Option.none).db
      = seedDb :=
  analyse_raise_leaves_db_unchanged violEnv violCfg seedDb "  return x"
    Option.none Option.none (by decide)

/-- Claim C6.  If some test input's output passes the success,
ancestor-call and non-null checks but is not numeric, `analyse` raises
immediately: no score map survives, nothing is registered, and the
database is untouched. -/
theorem analyse_contract_violation_raises (env : PyEnv) (cfg : EvalCfg)
    (db : List Registration) (sample : String) (isl : Option Int) (vg : Option Nat)
    (fn : Function) (prog : Program)
    (hsp : _sample_to_program env sample vg cfg.template cfg.function_to_evolve
      = some (fn, prog))
    (hviol : ∃ i, i ∈ cfg.inputs ∧ ∃ o,
        Sandbox.run env (env.render prog) cfg.function_to_run i = Except.ok (o, true)
        ∧ _calls_ancestor env (env.render prog) cfg.function_to_evolve = false
        ∧ o ≠ PyVal.none ∧ isNumeric o = false) :
    (Evaluator.analyse env cfg db sample isl vg).raised.isSome = true
    ∧ (Evaluator.analyse env cfg db sample isl vg).scores = []
    ∧ (Evaluator.analyse env cfg db sample isl vg).db = db := by
  obtain ⟨e, hloop⟩ := analyseLoop_raises env (env.render prog) cfg.function_to_run
    cfg.function_to_evolve cfg.inputs [] hviol
  rw [analyse_loop_error env cfg db sample isl vg fn prog e hsp hloop]
  exact ⟨rfl, rfl, rfl⟩

theorem analyse_contract_violation_raises_witness :
    (Evaluator.analyse violEnv violCfg [] "  return x" Option.none Option.none).raised.isSome
      = true
    ∧ (Evaluator.analyse violEnv violCfg [] "  return x" Option.none Option.none).scores = []
    ∧ (Evaluator.analyse violEnv violCfg [] "  return x" Option.none Option.none).db = [] :=
  analyse_contract_violation_raises violEnv violCfg [] "  return x" Option.none Option.none
    violFunction ⟨[violFunction]⟩ rfl
    ⟨PyVal.int 1, by decide, PyVal.str "ok", rfl, rfl, by decide, rfl⟩

/-- Claim C5.  When `analyse` completes without raising, it registers
`(new_function, island_id, scores_per_test)` with the database exactly
when the score map is non-empty; an empty score map leaves the database
untouched. -/
theorem analyse_register_iff_nonempty (env : PyEnv) (cfg : EvalCfg)
    (db : List Registration) (sample : String) (isl : Option Int) (vg : Option Nat)
    (hok : (Evaluator.analyse env cfg db sample isl vg).raised = Option.none) :
    ((Evaluator.analyse env cfg db sample isl vg).scores = []
        → (Evaluator.analyse env cfg db sample isl vg).db = db)
    ∧ ((Evaluator.analyse env cfg db sample isl vg).scores ≠ []
        → ∃ fn prog,
            _sample_to_program env sample vg cfg.template cfg.function_to_evolve
              = some (fn, prog)
            ∧ (Evaluator.analyse env cfg db sample isl vg).db
                = db ++ [⟨fn, isl, (Evaluator.analyse env cfg db sample isl vg).scores⟩]) := by
  rcases hsp : _sample_to_program env sample vg cfg.template cfg.function_to_evolve
    with - | ⟨fn, prog⟩
  · rw [analyse_eq_none env cfg db sample isl vg hsp] at hok
    cases hok
  · rcases hloop : analyseLoop env (env.render prog) cfg.function_to_run
      cfg.function_to_evolve cfg.inputs [] with e | m
    · rw [analyse_loop_error env cfg db sample isl vg fn prog e hsp hloop] at hok
      cases hok
    · rw [analyse_loop_ok env cfg db sample isl vg fn prog m hsp hloop]
      constructor
      · intro hempty
        have hm : m = [] := hempty
        show (if m.isEmpty then db else db ++ [⟨fn, isl, m⟩]) = db
        rw [hm]
        rfl
      · intro hne
        have hm : m ≠ [] := hne
        refine ⟨fn, prog, rfl, ?_⟩
        show (if m.isEmpty then db else db ++ [⟨fn, isl, m⟩]) = db ++ [⟨fn, isl, m⟩]
        rw [if_neg (fun hc => hm (List.isEmpty_iff.mp hc))]

/-- An environment whose single run scores `42`. -/
def goodEnv : PyEnv :=
  { parse := fun _ => Except.ok 2
    rename := fun body _ _ => body
    calledNames := fun _ => []
    render := fun _ => "P"
    pyStr := fun _ => "21"
    exec := fun _ _ _ => ExecOutcome.ret (PyVal.int 42) }

/-- One test input `21`. -/
def goodCfg : EvalCfg :=
  { template := baseTemplate
    function_to_evolve := "f"
    function_to_run := "main"
    inputs := [PyVal.int 21] }

/-- The mutated function assembled from the sample `"  return x * 2"`. -/
def goodFunction : Function := { name := "f", args := "x", body := "  return x * 2\n\n" }

theorem analyse_register_iff_nonempty_witness :
    ∃ fn prog,
      _sample_to_program goodEnv "  return x * 2" Option.none goodCfg.template
        goodCfg.function_to_evolve = some (fn, prog)
      ∧ (Evaluator.analyse goodEnv goodCfg [] "  return x * 2" Option.none Option.none).db
          = [] ++ [⟨fn, Option.none,
              (Evaluator.analyse goodEnv goodCfg [] "  return x * 2"
                Option.none Option.none).scores⟩] :=
  (analyse_register_iff_nonempty goodEnv goodCfg [] "  return x * 2"
    Option.none Option.none (by decide)).2 (by decide)

/-- Claim C2 (amended).  For a completed `analyse` call over inputs with
distinct string representations, the score map holds an entry under an
input's representation iff that input was admitted: its run succeeded,
the scan of the assembled program found no called name starting with
`<function_to_evolve>_v` (the code checks this prefix only, not the
`_v<digits>` pattern), and its output is a non-null number. -/
theorem analyse_scoremap_admission (env : PyEnv) (cfg : EvalCfg)
    (db : List Registration) (sample : String) (isl : Option Int) (vg : Option Nat)
    (fn : Function) (prog : Program)
    (hsp : _sample_to_program env sample vg cfg.template cfg.function_to_evolve
      = some (fn, prog))
    (hnodup : (cfg.inputs.map env.pyStr).Nodup)
    (hok : (Evaluator.analyse env cfg db sample isl vg).raised = Option.none)
    (i : PyVal) (hi : i ∈ cfg.inputs) :
    (∃ w, (env.pyStr i, w) ∈ (Evaluator.analyse env cfg db sample isl vg).scores)
      ↔ admitted env (env.render prog) cfg.function_to_run cfg.function_to_evolve i := by
  rcases hloop : analyseLoop env (env.render prog) cfg.function_to_run
    cfg.function_to_evolve cfg.inputs [] with e | m
  · rw [analyse_loop_error env cfg db sample isl vg fn prog e hsp hloop] at hok
    cases hok
  · rw [analyse_loop_ok env cfg db sample isl vg fn prog m hsp hloop]
    show (∃ w, (env.pyStr i, w) ∈ m) ↔ _
    rw [analyseLoop_ok_mem env (env.render prog) cfg.function_to_run
      cfg.function_to_evolve cfg.inputs [] m hloop (env.pyStr i)]
    constructor
    · rintro (⟨w, hw⟩ | ⟨j, hj, hjq, hadmj⟩)
      · exact absurd hw (List.not_mem_nil _)
      · have hji : j = i := List.inj_on_of_nodup_map hnodup hj hi hjq
        exact hji ▸ hadmj
    · intro hadm
      exact Or.inr ⟨i, hi, rfl, hadm⟩

theorem analyse_scoremap_admission_witness :
    ∃ w, ("21", w) ∈ (Evaluator.analyse goodEnv goodCfg [] "  return x * 2"
      Option.none Option.none).scores :=
  (analyse_scoremap_admission goodEnv goodCfg [] "  return x * 2" Option.none Option.none
      goodFunction ⟨[goodFunction]⟩ rfl (by decide) (by decide) (PyVal.int 21) (by decide)).mpr
    ⟨PyVal.int 42, rfl, rfl, by decide, rfl⟩

/-- An environment assembling a program whose only called name is
`"f_v"`: it starts with the prefix `f_v` but does not match the spec's
`f_v<digits>` pattern (its suffix is empty). -/
def prefixEnv : PyEnv :=
  { parse := fun _ => Except.ok 2
    rename := fun body _ _ => body
    calledNames := fun _ => ["f_v"]
    render := fun _ => "P"
    pyStr := fun _ => "0"
    exec := fun _ _ _ => ExecOutcome.ret (PyVal.int 1) }

/-- One test input for `prefixEnv`. -/
def prefixCfg : EvalCfg :=
  { template := baseTemplate
    function_to_evolve := "f"
    function_to_run := "main"
    inputs := [PyVal.int 0] }

/-- Claim C2 counterexample.  The run succeeds with the non-null number
`1`, and no called name matches the claim's `<function_to_evolve>_v<digits>`
pattern — yet the score map has no entry for the input, because the code
(evaluator.py line 130) flags any called name merely *starting with*
`f_v` (here the name `"f_v"` itself) as an ancestor call.  The claim's
"if and only if" fails in the if direction. -/
theorem analyse_scoremap_admission_cex :
    Sandbox.run prefixEnv "P" "main" (PyVal.int 0) = Except.ok (PyVal.int 1, true)
    ∧ spec_calls_ancestor prefixEnv "P" "f" = false
    ∧ (PyVal.int 1 : PyVal) ≠ PyVal.none
    ∧ isNumeric (PyVal.int 1) = true
    ∧ (Evaluator.analyse prefixEnv prefixCfg [] "  return 1"
        Option.none Option.none).raised = Option.none
    ∧ (Evaluator.analyse prefixEnv prefixCfg [] "  return 1"
        Option.none Option.none).scores = []
    ∧ _calls_ancestor prefixEnv "P" "f" = true := by
  refine ⟨rfl, rfl, by decide, rfl, ?_, ?_, rfl⟩ <;> decide

/-- Claim C10.  A successful, uncontaminated run returning the boolean
`True` or `False` raises no contract violation — `isinstance(b, int)`
holds for booleans, reflected by `isNumeric` — and the boolean itself is
recorded as the input's score (assuming every other input also keeps the
loop from raising, and distinct input representations). -/
theorem analyse_bool_score (env : PyEnv) (cfg : EvalCfg)
    (db : List Registration) (sample : String) (isl : Option Int) (vg : Option Nat)
    (fn : Function) (prog : Program)
    (hsp : _sample_to_program env sample vg cfg.template cfg.function_to_evolve
      = some (fn, prog))
    (hnodup : (cfg.inputs.map env.pyStr).Nodup)
    (hsafe : ∀ j ∈ cfg.inputs, ∃ o s,
        Sandbox.run env (env.render prog) cfg.function_to_run j = Except.ok (o, s)
        ∧ ((s = true ∧ _calls_ancestor env (env.render prog) cfg.function_to_evolve = false
              ∧ o ≠ PyVal.none) → isNumeric o = true))
    (i : PyVal) (b : Bool) (hi : i ∈ cfg.inputs)
    (hrun : Sandbox.run env (env.render prog) cfg.function_to_run i
      = Except.ok (PyVal.bool b, true))
    (hanc : _calls_ancestor env (env.render prog) cfg.function_to_evolve = false) :
    (Evaluator.analyse env cfg db sample isl vg).raised = Option.none
    ∧ (env.pyStr i, PyVal.bool b) ∈ (Evaluator.analyse env cfg db sample isl vg).scores
    ∧ isNumeric (PyVal.bool b) = true := by
  obtain ⟨m, hloop⟩ := analyseLoop_total env (env.render prog) cfg.function_to_run
    cfg.function_to_evolve cfg.inputs [] hsafe
  rw [analyse_loop_ok env cfg db sample isl vg fn prog m hsp hloop]
  refine ⟨rfl, ?_, rfl⟩
  show (env.pyStr i, PyVal.bool b) ∈ m
  exact analyseLoop_records env (env.render prog) cfg.function_to_run
    cfg.function_to_evolve cfg.inputs [] m hloop hnodup i (PyVal.bool b) hi hrun hanc
    (fun hc => PyVal.noConfusion hc) rfl

/-- An environment whose run returns the boolean `True`. -/
def boolEnv : PyEnv :=
  { parse := fun _ => Except.ok 2
    rename := fun body _ _ => body
    calledNames := fun _ => []
    render := fun _ => "P"
    pyStr := fun _ => "0"
    exec := fun _ _ _ => ExecOutcome.ret (PyVal.bool true) }

/-- One test input for `boolEnv`. -/
def boolCfg : EvalCfg :=
  { template := baseTemplate
    function_to_evolve := "f"
    function_to_run := "main"
    inputs := [PyVal.int 0] }

/-- The mutated function assembled from the sample `"  return True"`. -/
def boolFunction : Function := { name := "f", args := "x", body := "  return True\n\n" }

theorem analyse_bool_score_witness :
    (Evaluator.analyse boolEnv boolCfg [] "  return True" Option.none Option.none).raised
      = Option.none
    ∧ ("0", PyVal.bool true) ∈ (Evaluator.analyse boolEnv boolCfg [] "  return True"
        Option.none Option.none).scores
    ∧ isNumeric (PyVal.bool true) = true :=
  analyse_bool_score boolEnv boolCfg [] "  return True" Option.none Option.none
    boolFunction ⟨[boolFunction]⟩ rfl (by decide)
    (fun j hj => ⟨PyVal.bool true, true, rfl, fun _ => rfl⟩)
    (PyVal.int 0) true (by decide) rfl rfl

end Funsearch
